import Mathlib

/-!
Verification of the DualLink screen-mirroring core: a shallow embedding of
the DLNK UDP frame protocol, the frame reassembler, the UDP egress
packetiser, the length-prefixed signaling framing, the hello/PIN handshake,
the per-display session loop, and the `StreamConfig` JSON deserialisation.

Byte buffers are modelled as `List Nat` (each element a byte value),
machine integers as `Nat` with explicit truncation where the code casts,
and wall-clock instants as `Nat` milliseconds passed explicitly to the
functions that read the clock.
-/

namespace DualLink

-- ═════════════════════════════════════════════════════════════════════════
-- Core data model (duallink-core/src/types.rs, config.rs)
-- ═════════════════════════════════════════════════════════════════════════

inductive VideoCodec where
  | h264
  | h265
deriving DecidableEq, Repr

structure Resolution where
  width : Nat
  height : Nat
deriving DecidableEq, Repr

/-- `Resolution::FHD` -/
def Resolution.FHD : Resolution := ⟨1920, 1080⟩

structure StreamConfig where
  resolution : Resolution
  target_fps : Nat
  max_bitrate_bps : Nat
  codec : VideoCodec
  low_latency_mode : Bool
deriving DecidableEq, Repr

/-- `impl Default for StreamConfig` -/
def StreamConfig.default : StreamConfig :=
  { resolution := Resolution.FHD
    target_fps := 30
    max_bitrate_bps := 8000000
    codec := VideoCodec.h264
    low_latency_mode := true }

structure EncodedFrame where
  data : List Nat
  timestamp_us : Nat
  is_keyframe : Bool
  codec : VideoCodec
deriving DecidableEq, Repr

-- ═════════════════════════════════════════════════════════════════════════
-- DLNK packet parsing (duallink-transport/src/lib.rs, `parse_packet`)
-- ═════════════════════════════════════════════════════════════════════════

def MAGIC : Nat := 0x444C4E4B

def HEADER_SIZE : Nat := 20

/-- Big-endian integer value of a byte list (`u32::from_be_bytes` etc.). -/
def beVal (l : List Nat) : Nat := l.foldl (fun a b => a * 256 + b) 0

structure DualLinkPacket where
  frame_seq : Nat
  frag_index : Nat
  frag_count : Nat
  pts_ms : Nat
  is_keyframe : Bool
  display_index : Nat
  payload : List Nat
deriving DecidableEq, Repr

/-- `fn parse_packet(buf: &[u8]) -> Option<DualLinkPacket>` (lib.rs 215-234). -/
def parse_packet (buf : List Nat) : Option DualLinkPacket :=
  if buf.length < HEADER_SIZE then none
  else
    let magic := beVal (buf.take 4)
    if magic ≠ MAGIC then none
    else
      let frame_seq := beVal ((buf.drop 4).take 4)
      let frag_index := beVal ((buf.drop 8).take 2)
      let frag_count := beVal ((buf.drop 10).take 2)
      let pts_ms := beVal ((buf.drop 12).take 4)
      let flags := buf.getD 16 0
      let display_index := buf.getD 17 0
      if frag_count = 0 then none
      else
        some { frame_seq := frame_seq
               frag_index := frag_index
               frag_count := frag_count
               pts_ms := pts_ms
               is_keyframe := flags &&& 1 ≠ 0
               display_index := display_index
               payload := buf.drop HEADER_SIZE }

-- ═════════════════════════════════════════════════════════════════════════
-- Frame reassembler (duallink-transport/src/lib.rs 236-317)
-- ═════════════════════════════════════════════════════════════════════════

/-- `REASSEMBLY_TIMEOUT: Duration = Duration::from_secs(2)`, in milliseconds. -/
def REASSEMBLY_TIMEOUT_MS : Nat := 2000

structure PartialFrame where
  fragments : List (Option (List Nat))
  received_count : Nat
  total_count : Nat
  pts_ms : Nat
  is_keyframe : Bool
  first_seen : Nat
deriving DecidableEq, Repr

/-- `PartialFrame::new` -/
def PartialFrame.new (frag_count pts_ms : Nat) (is_keyframe : Bool) (now : Nat) :
    PartialFrame :=
  { fragments := List.replicate frag_count none
    received_count := 0
    total_count := frag_count
    pts_ms := pts_ms
    is_keyframe := is_keyframe
    first_seen := now }

/-- `PartialFrame::push` — returns the updated slot and the Rust return value
(true when all fragments have arrived). -/
def PartialFrame.push (pf : PartialFrame) (index : Nat) (payload : List Nat) :
    PartialFrame × Bool :=
  if h : index < pf.fragments.length then
    if (pf.fragments.get ⟨index, h⟩).isNone then
      let pf' := { pf with fragments := pf.fragments.set index (some payload),
                           received_count := pf.received_count + 1 }
      (pf', pf'.received_count == pf'.total_count)
    else
      (pf, pf.received_count == pf.total_count)
  else
    (pf, false)

/-- `PartialFrame::assemble` — concatenate stored fragments in index order. -/
def PartialFrame.assemble (pf : PartialFrame) : List Nat :=
  (pf.fragments.filterMap id).flatten

/-- Association-list lookup, standing in for `HashMap::get`. -/
def alookup (l : List (Nat × PartialFrame)) (k : Nat) : Option PartialFrame :=
  (l.find? (fun kv => kv.1 == k)).map (·.2)

/-- Association-list removal, standing in for `HashMap::remove`. -/
def aremove (l : List (Nat × PartialFrame)) (k : Nat) : List (Nat × PartialFrame) :=
  l.filter (fun kv => kv.1 != k)

/-- In-place value replacement, standing in for mutation through
`HashMap::entry`. -/
def aupdate (l : List (Nat × PartialFrame)) (k : Nat) (v : PartialFrame) :
    List (Nat × PartialFrame) :=
  l.map (fun kv => if kv.1 = k then (k, v) else kv)

structure FrameReassembler where
  frames : List (Nat × PartialFrame)
deriving DecidableEq, Repr

def FrameReassembler.empty : FrameReassembler := ⟨[]⟩

/-- The `retain` predicate of `FrameReassembler::push`: keep entries whose
`first_seen` is at most 2 seconds old. -/
def stillFresh (now : Nat) (kv : Nat × PartialFrame) : Bool :=
  decide (now - kv.2.first_seen ≤ REASSEMBLY_TIMEOUT_MS)

/-- The `EncodedFrame` built at the end of `FrameReassembler::push`. -/
def emitFrame (pf : PartialFrame) : EncodedFrame :=
  { data := pf.assemble
    timestamp_us := pf.pts_ms * 1000
    is_keyframe := pf.is_keyframe
    codec := VideoCodec.h264 }

/-- `FrameReassembler::push` (lib.rs 286-316) with the clock passed in. -/
def FrameReassembler.push (r : FrameReassembler) (now : Nat) (pkt : DualLinkPacket) :
    FrameReassembler × Option EncodedFrame :=
  let frames := r.frames.filter (stillFresh now)
  match alookup frames pkt.frame_seq with
  | some pf =>
      let res := pf.push pkt.frag_index pkt.payload
      if res.2 then
        (⟨aremove frames pkt.frame_seq⟩, some (emitFrame res.1))
      else
        (⟨aupdate frames pkt.frame_seq res.1⟩, none)
  | none =>
      let pf0 := PartialFrame.new pkt.frag_count pkt.pts_ms pkt.is_keyframe now
      let res := pf0.push pkt.frag_index pkt.payload
      if res.2 then
        (⟨frames⟩, some (emitFrame res.1))
      else
        (⟨(pkt.frame_seq, res.1) :: frames⟩, none)

/-- One iteration of `run_udp_receiver` (lib.rs 611-629): a datagram that the
parser rejects leaves the reassembler untouched. -/
def processDatagram (r : FrameReassembler) (now : Nat) (buf : List Nat) :
    FrameReassembler × Option EncodedFrame :=
  match parse_packet buf with
  | none => (r, none)
  | some pkt => r.push now pkt

/-- Push a timed sequence of packets, collecting the per-packet outputs. -/
def pushAll (r : FrameReassembler) :
    List (Nat × DualLinkPacket) → FrameReassembler × List (Option EncodedFrame)
  | [] => (r, [])
  | (t, pkt) :: rest =>
    let step := r.push t pkt
    let res := pushAll step.1 rest
    (res.1, step.2 :: res.2)

-- ═════════════════════════════════════════════════════════════════════════
-- UDP egress (duallink-transport-client/src/video_sender.rs, `send_frame`)
-- ═════════════════════════════════════════════════════════════════════════

def MAX_PAYLOAD_BYTES : Nat := 1384

/-- `u32::to_be_bytes` — truncates values ≥ 2^32 like an `as u32` cast. -/
def u32be (n : Nat) : List Nat :=
  [n / 2 ^ 24 % 256, n / 2 ^ 16 % 256, n / 2 ^ 8 % 256, n % 256]

/-- `u16::to_be_bytes` — truncates values ≥ 2^16 like an `as u16` cast. -/
def u16be (n : Nat) : List Nat := [n / 2 ^ 8 % 256, n % 256]

structure SendResult where
  datagrams : List (List Nat)
  frame_seq_after : Nat
  fragments_sent : Nat
deriving DecidableEq, Repr

/-- One datagram as built by the body of the fragment loop in `send_frame`. -/
def mkDatagram (frame_seq frag_index frag_count pts_ms flags display_index : Nat)
    (payload : List Nat) : List Nat :=
  u32be MAGIC ++ u32be frame_seq ++ u16be frag_index ++ u16be frag_count ++
    u32be pts_ms ++ [flags, display_index, 0, 0] ++ payload

/-- `VideoSender::send_frame` (video_sender.rs 93-157).  `frame_seq` is the
current value of the atomic counter; the result carries the datagrams sent,
the counter after the call, and the returned fragment count. -/
def send_frame (frame_seq display_index : Nat) (frame : EncodedFrame) : SendResult :=
  if frame.data.length = 0 then
    { datagrams := [], frame_seq_after := frame_seq, fragments_sent := 0 }
  else
    let pts_ms := frame.timestamp_us / 1000 % 2 ^ 32
    let flags : Nat := if frame.is_keyframe then 1 else 0
    let total_bytes := frame.data.length
    let num_fragments :=
      max ((total_bytes + MAX_PAYLOAD_BYTES - 1) / MAX_PAYLOAD_BYTES) 1
    let frag_count := num_fragments % 2 ^ 16
    { datagrams := (List.range num_fragments).map (fun i =>
        mkDatagram frame_seq (i % 2 ^ 16) frag_count pts_ms flags display_index
          ((frame.data.drop (i * MAX_PAYLOAD_BYTES)).take MAX_PAYLOAD_BYTES))
      frame_seq_after := (frame_seq + 1) % 2 ^ 32
      fragments_sent := num_fragments % 2 ^ 32 }

-- ═════════════════════════════════════════════════════════════════════════
-- Length-prefixed signaling framing
-- ═════════════════════════════════════════════════════════════════════════

def MAX_SIGNALING_BODY : Nat := 1048576

inductive ReadOutcome where
  | tooLarge (announced : Nat)
  | truncated
  | body (b : List Nat) (rest : List Nat)
deriving DecidableEq, Repr

/-- Sender-side `read_msg` framing (signaling.rs 154-168) applied to a byte
stream: read the 4-byte prefix, reject announced lengths above 1 MiB, then
read the body.  `truncated` stands for a `read_exact` error. -/
def read_msg_frame (input : List Nat) : ReadOutcome :=
  if input.length < 4 then .truncated
  else
    let len := beVal (input.take 4)
    if len > MAX_SIGNALING_BODY then .tooLarge len
    else if (input.drop 4).length < len then .truncated
    else .body ((input.drop 4).take len) (input.drop (4 + len))

/-- Receiver-side framing in `handle_signaling_conn` (lib.rs 684-695): read
the 4-byte prefix, resize the body buffer to the announced length and read
it — there is no size check. -/
def recv_frame (input : List Nat) : ReadOutcome :=
  if input.length < 4 then .truncated
  else
    let len := beVal (input.take 4)
    if (input.drop 4).length < len then .truncated
    else .body ((input.drop 4).take len) (input.drop (4 + len))

-- ═════════════════════════════════════════════════════════════════════════
-- Signaling hello handling (duallink-transport/src/lib.rs 704-758)
-- ═════════════════════════════════════════════════════════════════════════

structure HelloAckMsg where
  session_id : String
  accepted : Bool
  reason : Option String
deriving DecidableEq, Repr

inductive SignalingEvent where
  | sessionStarted (session_id device_name : String) (config : StreamConfig)
  | configUpdated (config : StreamConfig)
  | sessionStopped (session_id : String)
  | clientDisconnected
deriving DecidableEq, Repr

structure HelloMsg where
  session_id : Option String
  device_name : Option String
  config : Option StreamConfig
  pairing_pin : Option String
deriving DecidableEq, Repr

structure HelloOutcome where
  ack : HelloAckMsg
  events : List SignalingEvent
  closes : Bool
deriving DecidableEq, Repr

/-- The `MessageType::Hello` arm of `handle_signaling_conn`: validate the
pairing PIN, answer with `hello_ack`, and emit `SessionStarted` only on
acceptance.  `closes` records whether the handler `break`s the read loop. -/
def handle_hello (msg : HelloMsg) (expected_pin addr : String) : HelloOutcome :=
  let session_id := msg.session_id.getD ""
  let device_name := msg.device_name.getD addr
  let config := msg.config.getD StreamConfig.default
  let client_pin := msg.pairing_pin.getD ""
  if client_pin ≠ expected_pin then
    { ack := { session_id := session_id
               accepted := false
               reason := some "Invalid pairing PIN" }
      events := []
      closes := true }
  else
    { ack := { session_id := session_id, accepted := true, reason := none }
      events := [SignalingEvent.sessionStarted session_id device_name config]
      closes := false }

-- ═════════════════════════════════════════════════════════════════════════
-- Per-display session loop (duallink-app/src/app.rs, `run_display`)
-- ═════════════════════════════════════════════════════════════════════════

inductive SessionExit where
  | session_stopped
  | client_disconnected
  | config_updated
  | channels_closed
deriving DecidableEq, Repr

inductive DisplayInput where
  | frame (f : EncodedFrame)
  | event (e : SignalingEvent)
deriving DecidableEq, Repr

/-- The streaming `loop` of `run_display` (app.rs 262-322) over a merged
input sequence: returns the exit reason, the pending config stashed for a
hot reload, and the unconsumed inputs. -/
def streamLoop (cur : StreamConfig) :
    List DisplayInput → SessionExit × Option StreamConfig × List DisplayInput
  | [] => (.channels_closed, none, [])
  | .frame _ :: rest => streamLoop cur rest
  | .event e :: rest =>
    match e with
    | .sessionStopped _ => (.session_stopped, none, rest)
    | .clientDisconnected => (.client_disconnected, none, rest)
    | .configUpdated newCfg =>
      if newCfg.resolution.width ≠ cur.resolution.width ∨
          newCfg.resolution.height ≠ cur.resolution.height then
        (.config_updated, some newCfg, rest)
      else
        streamLoop cur rest
    | .sessionStarted _ _ _ => streamLoop cur rest

/-- The pre-session wait of `run_display` (app.rs 148-182): skim events until
a `SessionStarted` supplies the config. -/
def waitHello : List DisplayInput → Option (StreamConfig × List DisplayInput)
  | [] => none
  | .event (.sessionStarted _ _ cfg) :: rest => some (cfg, rest)
  | _ :: rest => waitHello rest

/-- Config selection at the top of each reconnect iteration
(app.rs 137-184): a pending hot-reload config is used immediately,
otherwise the loop waits for the next hello. -/
def nextSessionConfig (pending : Option StreamConfig) (inputs : List DisplayInput) :
    Option (StreamConfig × List DisplayInput) :=
  match pending with
  | some cfg => some (cfg, inputs)
  | none => waitHello inputs

-- ═════════════════════════════════════════════════════════════════════════
-- StreamConfig JSON deserialisation (duallink-core/src/config.rs)
-- ═════════════════════════════════════════════════════════════════════════

inductive Json where
  | num (n : Nat)
  | str (s : String)
  | bool (b : Bool)
  | obj (fields : List (String × Json))
deriving Repr

/-- Match a JSON object key against a serde field name or its
`#[serde(alias)]`. -/
def getField (fs : List (String × Json)) (name alt : String) : Option Json :=
  (fs.find? (fun kv => kv.1 == name || kv.1 == alt)).map (·.2)

def asU32 : Json → Option Nat
  | .num n => if n < 2 ^ 32 then some n else none
  | _ => none

def asU64 : Json → Option Nat
  | .num n => if n < 2 ^ 64 then some n else none
  | _ => none

def asBool : Json → Option Bool
  | .bool b => some b
  | _ => none

/-- `VideoCodec` with `#[serde(rename_all = "lowercase")]`. -/
def VideoCodec.fromJson : Json → Option VideoCodec
  | .str s =>
    if s = "h264" then some .h264
    else if s = "h265" then some .h265
    else none
  | _ => none

/-- `Resolution` derive: both fields mandatory, no aliases. -/
def Resolution.fromJson : Json → Option Resolution
  | .obj fs => do
    let w ← getField fs "width" "width" >>= asU32
    let h ← getField fs "height" "height" >>= asU32
    pure { width := w, height := h }
  | _ => none

/-- A field with container-level `#[serde(default)]`: absent keys fall back
to the corresponding field of `StreamConfig::default()`. -/
def optField {α : Type} (fs : List (String × Json)) (name alt : String)
    (parse : Json → Option α) (dflt : α) : Option α :=
  match getField fs name alt with
  | none => some dflt
  | some j => parse j

/-- The serde deserialiser of `StreamConfig` (config.rs 5-28): snake_case
field names with camelCase aliases, container-level default. -/
def StreamConfig.fromJson : Json → Option StreamConfig
  | .obj fs => do
    let res ← optField fs "resolution" "resolution" Resolution.fromJson
      StreamConfig.default.resolution
    let fps ← optField fs "target_fps" "targetFPS" asU32 StreamConfig.default.target_fps
    let br ← optField fs "max_bitrate_bps" "maxBitrateBps" asU64
      StreamConfig.default.max_bitrate_bps
    let codec ← optField fs "codec" "codec" VideoCodec.fromJson StreamConfig.default.codec
    let ll ← optField fs "low_latency_mode" "lowLatencyMode" asBool
      StreamConfig.default.low_latency_mode
    pure { resolution := res
           target_fps := fps
           max_bitrate_bps := br
           codec := codec
           low_latency_mode := ll }
  | _ => none

def VideoCodec.jsonName : VideoCodec → String
  | .h264 => "h264"
  | .h265 => "h265"

def Resolution.toJson (r : Resolution) : Json :=
  .obj [("width", .num r.width), ("height", .num r.height)]

/-- The snake_case spelling of a `StreamConfig` as a JSON object. -/
def StreamConfig.toJsonSnake (c : StreamConfig) : Json :=
  .obj [("resolution", c.resolution.toJson),
        ("target_fps", .num c.target_fps),
        ("max_bitrate_bps", .num c.max_bitrate_bps),
        ("codec", .str c.codec.jsonName),
        ("low_latency_mode", .bool c.low_latency_mode)]

/-- The camelCase spelling of a `StreamConfig` as a JSON object. -/
def StreamConfig.toJsonCamel (c : StreamConfig) : Json :=
  .obj [("resolution", c.resolution.toJson),
        ("targetFPS", .num c.target_fps),
        ("maxBitrateBps", .num c.max_bitrate_bps),
        ("codec", .str c.codec.jsonName),
        ("lowLatencyMode", .bool c.low_latency_mode)]

-- ═════════════════════════════════════════════════════════════════════════
-- Proof infrastructure
-- ═════════════════════════════════════════════════════════════════════════

/-- Fragment store holding exactly the payloads of the indices in `got`. -/
def fillFrags (n : Nat) (got : List Nat) (p : Nat → List Nat) :
    List (Option (List Nat)) :=
  (List.range n).map (fun i => if i ∈ got then some (p i) else none)

/-- Concatenation of the fragment payloads in index order. -/
def joinRange (n : Nat) (p : Nat → List Nat) : List Nat :=
  ((List.range n).map p).flatten

/-- The fragment packet of index `i` for a frame split into `n` parts. -/
def fragPacket (seq n pts : Nat) (kfs : Nat → Bool) (p : Nat → List Nat)
    (i : Nat) : DualLinkPacket :=
  { frame_seq := seq
    frag_index := i
    frag_count := n
    pts_ms := pts
    is_keyframe := kfs i
    display_index := 0
    payload := p i }

/-- The partial slot of a frame split into `n` parts after the indices in
`got` have been stored: created at `t0` by the slot-creating packet (whose
keyframe flag was `kf0`). -/
def pfAt (n : Nat) (p : Nat → List Nat) (pts : Nat) (kf0 : Bool) (t0 : Nat)
    (got : List Nat) : PartialFrame :=
  { fragments := fillFrags n got p
    received_count := got.length
    total_count := n
    pts_ms := pts
    is_keyframe := kf0
    first_seen := t0 }

-- ═════════════════════════════════════════════════════════════════════════
-- C8: parser rejection conditions
-- ═════════════════════════════════════════════════════════════════════════

/-- C8: the DLNK parser returns no packet exactly when the buffer is shorter
than 20 bytes, the leading 4 bytes are not the DLNK magic, or `frag_count`
is zero; an accepted buffer's payload is the trailing slice (so a 20-byte
buffer's zero-length payload is accepted); and a rejected buffer leaves the
reassembler state completely unchanged. -/
theorem C8_parse_packet_rejects (buf : List Nat) :
    (parse_packet buf = none ↔
      buf.length < 20 ∨ beVal (buf.take 4) ≠ MAGIC ∨ beVal ((buf.drop 10).take 2) = 0)
    ∧ (∀ pkt, parse_packet buf = some pkt → pkt.payload = buf.drop 20)
    ∧ (∀ (r : FrameReassembler) (now : Nat), parse_packet buf = none →
        processDatagram r now buf = (r, none)) := by
  refine ⟨?_, ?_, ?_⟩
  · by_cases h1 : buf.length < 20
    · simp [parse_packet, HEADER_SIZE, h1]
    · by_cases h2 : beVal (buf.take 4) = MAGIC
      · by_cases h3 : beVal ((buf.drop 10).take 2) = 0
        · simp [parse_packet, HEADER_SIZE, h1, h2, h3]
        · simp [parse_packet, HEADER_SIZE, h1, h2, h3]
      · simp [parse_packet, HEADER_SIZE, h1, h2]
  · intro pkt h
    simp only [parse_packet, HEADER_SIZE] at h
    split at h
    · exact absurd h (by simp)
    · split at h
      · exact absurd h (by simp)
      · split at h
        · exact absurd h (by simp)
        · injection h with h
          subst h
          rfl
  · intro r now h
    simp [processDatagram, h]

/-- C8 witness: a 20-byte all-zero buffer has bad magic, is rejected, and
leaves a concrete reassembler untouched. -/
theorem C8_parse_packet_rejects_witness :
    parse_packet (List.replicate 20 0) = none ∧
    processDatagram FrameReassembler.empty 5 (List.replicate 20 0) =
      (FrameReassembler.empty, none) := by
  have h := C8_parse_packet_rejects (List.replicate 20 0)
  have hn : parse_packet (List.replicate 20 0) = none :=
    h.1.mpr (Or.inr (Or.inl (by decide)))
  exact ⟨hn, h.2.2 FrameReassembler.empty 5 hn⟩

-- ═════════════════════════════════════════════════════════════════════════
-- C3: 1 MiB signaling body limit
-- ═════════════════════════════════════════════════════════════════════════

/-- C3 counterexample: the receiver-side reader does not reject an announced
body length above 1 MiB.  At the concrete prefix `[0x00, 0x10, 0x00, 0x01]`
(announcing 1,048,577 bytes) it goes on to read the body (here: hits end of
stream) rather than rejecting the oversized message. -/
theorem C3_counterexample :
    ¬ (∀ input : List Nat, 4 ≤ input.length →
        MAX_SIGNALING_BODY < beVal (input.take 4) →
        recv_frame input = ReadOutcome.tooLarge (beVal (input.take 4))) := by
  intro h
  have h1 := h [0, 16, 0, 1] (by decide) (by decide)
  have h2 : recv_frame [0, 16, 0, 1] = ReadOutcome.truncated := by decide
  rw [h2] at h1
  exact ReadOutcome.noConfusion h1

/-- C3 amended: only the sender-side reader (`read_msg`) rejects announced
body lengths above 1 MiB; the receiver-side reader in
`handle_signaling_conn` performs no size check and reads any announced
length whenever enough bytes are available. -/
theorem C3_amended_sender_only_limit (input : List Nat)
    (h4 : 4 ≤ input.length)
    (hbig : MAX_SIGNALING_BODY < beVal (input.take 4)) :
    read_msg_frame input = ReadOutcome.tooLarge (beVal (input.take 4)) ∧
    (beVal (input.take 4) ≤ (input.drop 4).length →
      recv_frame input =
        ReadOutcome.body ((input.drop 4).take (beVal (input.take 4)))
          (input.drop (4 + beVal (input.take 4)))) := by
  constructor
  · simp [read_msg_frame, Nat.not_lt.mpr h4, hbig]
  · intro hle
    rw [List.length_drop] at hle
    simp [recv_frame, Nat.not_lt.mpr h4, Nat.not_lt.mpr hle]

/-- C3 witness: the sender-side reader rejects the concrete oversized
announcement `[0x00, 0x10, 0x00, 0x01]`. -/
theorem C3_amended_sender_only_limit_witness :
    read_msg_frame [0, 16, 0, 1] = ReadOutcome.tooLarge 1048577 := by
  have h := (C3_amended_sender_only_limit [0, 16, 0, 1] (by decide) (by decide)).1
  simpa using h

-- ═════════════════════════════════════════════════════════════════════════
-- C4: pairing PIN validation
-- ═════════════════════════════════════════════════════════════════════════

/-- C4: a hello whose pairingPin differs from the receiver's PIN is answered
with `hello_ack{accepted=false, reason="Invalid pairing PIN"}`, the
connection is closed, and no `SessionStarted` is emitted; a hello with the
matching PIN is answered with `hello_ack{accepted=true}` and emits
`SessionStarted`. -/
theorem C4_pin_validation (msg : HelloMsg) (pin addr : String) :
    (msg.pairing_pin.getD "" ≠ pin →
      handle_hello msg pin addr =
        { ack := { session_id := msg.session_id.getD ""
                   accepted := false
                   reason := some "Invalid pairing PIN" }
          events := []
          closes := true })
    ∧ (msg.pairing_pin.getD "" = pin →
      handle_hello msg pin addr =
        { ack := { session_id := msg.session_id.getD ""
                   accepted := true
                   reason := none }
          events := [SignalingEvent.sessionStarted (msg.session_id.getD "")
            (msg.device_name.getD addr) (msg.config.getD StreamConfig.default)]
          closes := false }) := by
  constructor
  · intro h
    simp [handle_hello, h]
  · intro h
    simp [handle_hello, h]

/-- C4 witness: a concrete hello with the wrong PIN is rejected with the
exact reason string, closing the connection with no event; one with the
right PIN is accepted and starts the session. -/
theorem C4_pin_validation_witness :
    handle_hello ⟨some "s1", some "mac", none, some "000000"⟩ "123456" "peer" =
      { ack := { session_id := "s1"
                 accepted := false
                 reason := some "Invalid pairing PIN" }
        events := []
        closes := true } ∧
    handle_hello ⟨some "s1", some "mac", none, some "123456"⟩ "123456" "peer" =
      { ack := { session_id := "s1", accepted := true, reason := none }
        events := [SignalingEvent.sessionStarted "s1" "mac" StreamConfig.default]
        closes := false } := by
  constructor
  · exact (C4_pin_validation ⟨some "s1", some "mac", none, some "000000"⟩
      "123456" "peer").1 (by decide)
  · exact (C4_pin_validation ⟨some "s1", some "mac", none, some "123456"⟩
      "123456" "peer").2 (by decide)

-- ═════════════════════════════════════════════════════════════════════════
-- C5: ConfigUpdated hot reload
-- ═════════════════════════════════════════════════════════════════════════

theorem Resolution.eq_of_wh {a b : Resolution} (hw : a.width = b.width)
    (hh : a.height = b.height) : a = b := by
  cases a
  cases b
  simp_all

/-- C5: a mid-session `ConfigUpdated` with the current resolution keeps the
streaming loop running (the decoder is not restarted); one with a different
resolution exits the loop with reason `config_updated` and the next
reconnect iteration re-enters decoder initialisation with the new config
immediately, without waiting for another hello. -/
theorem C5_hot_reload (cur newCfg : StreamConfig) (rest : List DisplayInput) :
    (newCfg.resolution = cur.resolution →
      streamLoop cur (.event (.configUpdated newCfg) :: rest) = streamLoop cur rest)
    ∧ (newCfg.resolution ≠ cur.resolution →
      streamLoop cur (.event (.configUpdated newCfg) :: rest) =
        (.config_updated, some newCfg, rest)
      ∧ nextSessionConfig (some newCfg) rest = some (newCfg, rest)) := by
  constructor
  · intro h
    have hw : newCfg.resolution.width = cur.resolution.width := by rw [h]
    have hh : newCfg.resolution.height = cur.resolution.height := by rw [h]
    simp [streamLoop, hw, hh]
  · intro h
    have hd : newCfg.resolution.width ≠ cur.resolution.width ∨
        newCfg.resolution.height ≠ cur.resolution.height := by
      by_contra hc
      push_neg at hc
      obtain ⟨hw, hh⟩ := hc
      exact h (Resolution.eq_of_wh hw hh)
    exact ⟨by simp [streamLoop, hd], by simp [nextSessionConfig]⟩

/-- C5 witness: at concrete configs, a same-resolution update keeps
streaming and a 2560×1440 update exits with `config_updated` and hot
reloads with the new config. -/
theorem C5_hot_reload_witness :
    streamLoop StreamConfig.default
        (.event (.configUpdated StreamConfig.default) :: []) =
      streamLoop StreamConfig.default [] ∧
    streamLoop StreamConfig.default
        (.event (.configUpdated { StreamConfig.default with
          resolution := ⟨2560, 1440⟩ }) :: []) =
      (.config_updated, some { StreamConfig.default with resolution := ⟨2560, 1440⟩ }, [])
      ∧ nextSessionConfig
          (some { StreamConfig.default with resolution := ⟨2560, 1440⟩ }) [] =
        some ({ StreamConfig.default with resolution := ⟨2560, 1440⟩ }, []) := by
  constructor
  · exact (C5_hot_reload StreamConfig.default StreamConfig.default []).1 rfl
  · exact (C5_hot_reload StreamConfig.default
      { StreamConfig.default with resolution := ⟨2560, 1440⟩ } []).2 (by decide)

-- ═════════════════════════════════════════════════════════════════════════
-- C2: UDP egress packetisation
-- ═════════════════════════════════════════════════════════════════════════

theorem flatten_chunks (c : Nat) (_hc : 0 < c) :
    ∀ (k : Nat) (data : List Nat), data.length ≤ k * c →
      ((List.range k).map (fun i => (data.drop (i * c)).take c)).flatten = data := by
  intro k
  induction k with
  | zero =>
    intro data h
    simp only [Nat.zero_mul, Nat.le_zero] at h
    simp [List.eq_nil_of_length_eq_zero h]
  | succ k ih =>
    intro data h
    have hs : (k + 1) * c = k * c + c := by ring
    rw [hs] at h
    rw [List.range_succ_eq_map]
    simp only [List.map_cons, List.map_map, List.flatten_cons, Nat.zero_mul,
      List.drop_zero]
    have hmap : (List.range k).map ((fun i => (data.drop (i * c)).take c) ∘ Nat.succ) =
        (List.range k).map (fun i => ((data.drop c).drop (i * c)).take c) := by
      apply List.map_congr_left
      intro i _
      simp only [Function.comp, Nat.succ_eq_add_one]
      rw [List.drop_drop]
      congr 2
      ring
    rw [hmap, ih (data.drop c) (by simp only [List.length_drop]; omega)]
    exact List.take_append_drop c data

/-- C2 counterexample: for an empty encoded frame, `send_frame` returns
early, sending zero fragments and leaving `frame_seq` unchanged, contrary
to the claimed "at least 1 fragment even when the frame is empty". -/
theorem C2_counterexample :
    (send_frame 5 0 ⟨[], 0, true, VideoCodec.h264⟩).datagrams.length = 0 ∧
    (send_frame 5 0 ⟨[], 0, true, VideoCodec.h264⟩).frame_seq_after = 5 ∧
    ¬ 1 ≤ (send_frame 5 0 ⟨[], 0, true, VideoCodec.h264⟩).fragments_sent := by
  refine ⟨rfl, rfl, by decide⟩

/-- C2 amended: for every encoded frame with a nonempty payload of size N,
`send_frame` splits it into ceil(N/1384) payload slices (at least one),
each datagram carries the 20-byte DLNK header with 0-based `frag_index` and
`frag_count` equal to the slice total, `frame_seq` is incremented exactly
once, and the datagram payloads reassemble to the frame data; an empty
frame sends no fragments and leaves `frame_seq` unchanged. -/
theorem C2_egress_packetisation (frame_seq display_index : Nat)
    (frame : EncodedFrame) (hN : 0 < frame.data.length) :
    (send_frame frame_seq display_index frame).datagrams.length =
      (frame.data.length + 1383) / 1384 ∧
    1 ≤ (frame.data.length + 1383) / 1384 ∧
    (send_frame frame_seq display_index frame).fragments_sent =
      (frame.data.length + 1383) / 1384 % 2 ^ 32 ∧
    (send_frame frame_seq display_index frame).frame_seq_after =
      (frame_seq + 1) % 2 ^ 32 ∧
    (∀ i < (frame.data.length + 1383) / 1384,
      (send_frame frame_seq display_index frame).datagrams[i]? =
        some (mkDatagram frame_seq (i % 2 ^ 16)
          ((frame.data.length + 1383) / 1384 % 2 ^ 16)
          (frame.timestamp_us / 1000 % 2 ^ 32)
          (if frame.is_keyframe then 1 else 0) display_index
          ((frame.data.drop (i * 1384)).take 1384))) ∧
    (∀ d ∈ (send_frame frame_seq display_index frame).datagrams, 20 ≤ d.length) ∧
    ((send_frame frame_seq display_index frame).datagrams.map
      (fun d => d.drop 20)).flatten = frame.data := by
  have hne : ¬ frame.data.length = 0 := Nat.pos_iff_ne_zero.mp hN
  have hceil : 1 ≤ (frame.data.length + 1383) / 1384 :=
    (Nat.one_le_div_iff (by norm_num)).mpr (by omega)
  have hmax : (frame.data.length + 1384 - 1) / 1384 ⊔ 1 =
      (frame.data.length + 1383) / 1384 := by
    have h1 : frame.data.length + 1384 - 1 = frame.data.length + 1383 := by omega
    rw [h1]
    exact Nat.max_eq_left hceil
  have hsend : send_frame frame_seq display_index frame =
      { datagrams := (List.range ((frame.data.length + 1383) / 1384)).map (fun i =>
          mkDatagram frame_seq (i % 2 ^ 16) ((frame.data.length + 1383) / 1384 % 2 ^ 16)
            (frame.timestamp_us / 1000 % 2 ^ 32)
            (if frame.is_keyframe then 1 else 0) display_index
            ((frame.data.drop (i * 1384)).take 1384)),
        frame_seq_after := (frame_seq + 1) % 2 ^ 32,
        fragments_sent := (frame.data.length + 1383) / 1384 % 2 ^ 32 } := by
    unfold send_frame
    rw [if_neg hne]
    simp only [MAX_PAYLOAD_BYTES, hmax]
  have hcover : frame.data.length ≤ (frame.data.length + 1383) / 1384 * 1384 := by
    have h1 := Nat.div_add_mod (frame.data.length + 1383) 1384
    have h2 : (frame.data.length + 1383) % 1384 < 1384 := Nat.mod_lt _ (by norm_num)
    omega
  refine ⟨?_, hceil, ?_, ?_, ?_, ?_, ?_⟩
  · rw [hsend]; simp
  · rw [hsend]
  · rw [hsend]
  · intro i hi
    rw [hsend]
    simp only [List.getElem?_map, List.getElem?_range, hi, if_pos]
    rfl
  · intro d hd
    rw [hsend] at hd
    simp only [List.mem_map, List.mem_range] at hd
    obtain ⟨i, _, rfl⟩ := hd
    simp [mkDatagram, u32be, u16be]
  · rw [hsend]
    simp only [List.map_map]
    have hmap : ((List.range ((frame.data.length + 1383) / 1384)).map
        ((fun d => List.drop 20 d) ∘ (fun i =>
          mkDatagram frame_seq (i % 2 ^ 16) ((frame.data.length + 1383) / 1384 % 2 ^ 16)
            (frame.timestamp_us / 1000 % 2 ^ 32)
            (if frame.is_keyframe then 1 else 0) display_index
            ((frame.data.drop (i * 1384)).take 1384)))) =
        (List.range ((frame.data.length + 1383) / 1384)).map
          (fun i => (frame.data.drop (i * 1384)).take 1384) := by
      apply List.map_congr_left
      intro i _
      simp [mkDatagram, u32be, u16be]
    rw [hmap]
    exact flatten_chunks 1384 (by norm_num) _ _ hcover

/-- C2 witness: a concrete 2000-byte keyframe is split into two datagrams
with the stated headers, and the counter advances by one. -/
theorem C2_egress_packetisation_witness :
    (send_frame 7 0 ⟨[1, 2, 3], 1000000, true, VideoCodec.h264⟩).datagrams.length = 1 ∧
    (send_frame 7 0 ⟨[1, 2, 3], 1000000, true, VideoCodec.h264⟩).frame_seq_after = 8 := by
  have h := C2_egress_packetisation 7 0 ⟨[1, 2, 3], 1000000, true, VideoCodec.h264⟩
    (by norm_num)
  refine ⟨?_, ?_⟩
  · rw [h.1]
    norm_num
  · rw [h.2.2.2.1]
    norm_num

-- ═════════════════════════════════════════════════════════════════════════
-- C9: StreamConfig deserialisation aliases and defaults
-- ═════════════════════════════════════════════════════════════════════════

/-- C9: deserialising the camelCase spelling and the snake_case spelling of
a `StreamConfig` yield equal values (both recover the original config), and
an object with all fields missing deserialises to the default
{1920×1080, 30 fps, 8 Mb/s, h264, low-latency on}. -/
theorem C9_stream_config_aliases (cfg : StreamConfig)
    (hw : cfg.resolution.width < 2 ^ 32) (hh : cfg.resolution.height < 2 ^ 32)
    (hf : cfg.target_fps < 2 ^ 32) (hb : cfg.max_bitrate_bps < 2 ^ 64) :
    StreamConfig.fromJson cfg.toJsonCamel = some cfg ∧
    StreamConfig.fromJson cfg.toJsonSnake = some cfg ∧
    StreamConfig.fromJson (Json.obj []) = some StreamConfig.default := by
  obtain ⟨⟨w, h⟩, fps, br, codec, ll⟩ := cfg
  simp only [StreamConfig.target_fps, StreamConfig.max_bitrate_bps,
    StreamConfig.resolution, Resolution.width, Resolution.height] at hw hh hf hb
  norm_num at hw hh hf hb
  refine ⟨?_, ?_, by rfl⟩
  · cases codec <;>
      simp [StreamConfig.fromJson, StreamConfig.toJsonCamel, Resolution.toJson,
        getField, optField, Resolution.fromJson, asU32, asU64, asBool,
        VideoCodec.fromJson, VideoCodec.jsonName, hw, hh, hf, hb]
  · cases codec <;>
      simp [StreamConfig.fromJson, StreamConfig.toJsonSnake, Resolution.toJson,
        getField, optField, Resolution.fromJson, asU32, asU64, asBool,
        VideoCodec.fromJson, VideoCodec.jsonName, hw, hh, hf, hb]

/-- C9 witness: the high-performance-style config round-trips through both
spellings. -/
theorem C9_stream_config_aliases_witness :
    StreamConfig.fromJson (StreamConfig.toJsonCamel
      ⟨⟨2560, 1440⟩, 60, 20000000, VideoCodec.h264, true⟩) =
      some ⟨⟨2560, 1440⟩, 60, 20000000, VideoCodec.h264, true⟩ ∧
    StreamConfig.fromJson (StreamConfig.toJsonSnake
      ⟨⟨2560, 1440⟩, 60, 20000000, VideoCodec.h264, true⟩) =
      some ⟨⟨2560, 1440⟩, 60, 20000000, VideoCodec.h264, true⟩ := by
  have h := C9_stream_config_aliases ⟨⟨2560, 1440⟩, 60, 20000000, VideoCodec.h264, true⟩
    (by norm_num) (by norm_num) (by norm_num) (by norm_num)
  exact ⟨h.1, h.2.1⟩

-- ═════════════════════════════════════════════════════════════════════════
-- Association-list map lemmas
-- ═════════════════════════════════════════════════════════════════════════

theorem filter_stillFresh_eq_self (now : Nat) (l : List (Nat × PartialFrame))
    (h : ∀ kv ∈ l, now - kv.2.first_seen ≤ REASSEMBLY_TIMEOUT_MS) :
    l.filter (stillFresh now) = l := by
  rw [List.filter_eq_self]
  intro kv hkv
  simpa [stillFresh] using h kv hkv

theorem alookup_eq_none_iff (l : List (Nat × PartialFrame)) (k : Nat) :
    alookup l k = none ↔ ∀ kv ∈ l, kv.1 ≠ k := by
  simp [alookup, List.find?_eq_none]

theorem aupdate_no_key (l : List (Nat × PartialFrame)) (k : Nat) (v : PartialFrame)
    (h : ∀ kv ∈ l, kv.1 ≠ k) : aupdate l k v = l := by
  induction l with
  | nil => rfl
  | cons a t ih =>
    simp only [aupdate, List.map_cons]
    rw [if_neg (h a (List.mem_cons_self a t))]
    have := ih (fun kv hkv => h kv (List.mem_cons_of_mem a hkv))
    simp only [aupdate] at this
    rw [this]

theorem aupdate_eq_self (l : List (Nat × PartialFrame)) (k : Nat) (v : PartialFrame)
    (hkeys : (l.map Prod.fst).Nodup) (hlook : alookup l k = some v) :
    aupdate l k v = l := by
  induction l with
  | nil => simp [alookup] at hlook
  | cons a t ih =>
    simp only [List.map_cons, List.nodup_cons] at hkeys
    by_cases hak : a.1 = k
    · have hv : a.2 = v := by
        simp only [alookup, List.find?_cons, hak, beq_self_eq_true] at hlook
        simpa using hlook
      have hnot : ∀ kv ∈ t, kv.1 ≠ k := by
        intro kv hkv hk
        exact hkeys.1 (hak ▸ hk ▸ List.mem_map_of_mem Prod.fst hkv)
      simp only [aupdate, List.map_cons, if_pos hak]
      have h2 := aupdate_no_key t k v hnot
      simp only [aupdate] at h2
      rw [h2]
      have : a = (k, v) := by
        obtain ⟨a1, a2⟩ := a
        simp_all
      rw [this]
    · have hlook' : alookup t k = some v := by
        simp only [alookup, List.find?_cons] at hlook ⊢
        rw [show (a.1 == k) = false from beq_eq_false_iff_ne.mpr hak] at hlook
        exact hlook
      simp only [aupdate, List.map_cons, if_neg hak]
      have h2 := ih hkeys.2 hlook'
      simp only [aupdate] at h2
      rw [h2]

theorem alookup_aupdate_self (l : List (Nat × PartialFrame)) (k : Nat)
    (v w : PartialFrame) (hlook : alookup l k = some w) :
    alookup (aupdate l k v) k = some v := by
  induction l with
  | nil => simp [alookup] at hlook
  | cons a t ih =>
    by_cases hak : a.1 = k
    · simp [aupdate, alookup, List.find?_cons, hak]
    · have hlook' : alookup t k = some w := by
        simp only [alookup, List.find?_cons] at hlook ⊢
        rw [show (a.1 == k) = false from beq_eq_false_iff_ne.mpr hak] at hlook
        exact hlook
      have h2 := ih hlook'
      simp only [aupdate, alookup, List.map_cons, List.find?_cons, if_neg hak] at h2 ⊢
      rw [show (a.1 == k) = false from beq_eq_false_iff_ne.mpr hak]
      exact h2

theorem alookup_aremove_self (l : List (Nat × PartialFrame)) (k : Nat) :
    alookup (aremove l k) k = none := by
  rw [alookup_eq_none_iff]
  intro kv hkv
  have := List.of_mem_filter hkv
  simpa using this

theorem mem_key_unique (l : List (Nat × PartialFrame)) (s : Nat) (pf : PartialFrame)
    (hkeys : (l.map Prod.fst).Nodup) (hlook : alookup l s = some pf) :
    ∀ kv ∈ l, kv.1 = s → kv = (s, pf) := by
  induction l with
  | nil => simp
  | cons a t ih =>
    simp only [List.map_cons, List.nodup_cons] at hkeys
    intro kv hkv hks
    rcases List.mem_cons.mp hkv with rfl | hmem
    · have hv : kv.2 = pf := by
        simp only [alookup, List.find?_cons, hks, beq_self_eq_true] at hlook
        simpa using hlook
      obtain ⟨k1, k2⟩ := kv
      simp_all
    · by_cases hak : a.1 = s
      · exact absurd (hak ▸ hks ▸ List.mem_map_of_mem Prod.fst hmem) hkeys.1
      · have hlook' : alookup t s = some pf := by
          simp only [alookup, List.find?_cons] at hlook ⊢
          rw [show (a.1 == s) = false from beq_eq_false_iff_ne.mpr hak] at hlook
          exact hlook
        exact ih hkeys.2 hlook' kv hmem hks

-- ═════════════════════════════════════════════════════════════════════════
-- PartialFrame.push computation lemmas
-- ═════════════════════════════════════════════════════════════════════════

theorem PartialFrame.push_duplicate (pf : PartialFrame) (idx : Nat)
    (x y : List Nat) (hfilled : pf.fragments[idx]? = some (some x))
    (hinc : pf.received_count ≠ pf.total_count) :
    pf.push idx y = (pf, false) := by
  have hlt : idx < pf.fragments.length := by
    by_contra hge
    rw [List.getElem?_eq_none (Nat.not_lt.mp hge)] at hfilled
    exact Option.noConfusion hfilled
  have hval : pf.fragments[idx] = some x := by
    have := List.getElem?_eq_getElem hlt
    rw [this] at hfilled
    exact Option.some.inj hfilled
  unfold PartialFrame.push
  rw [dif_pos hlt]
  simp only [List.get_eq_getElem, hval, Option.isNone_some, Bool.false_eq_true,
    if_false]
  rw [beq_eq_false_iff_ne.mpr hinc]

theorem PartialFrame.push_oob (pf : PartialFrame) (idx : Nat) (y : List Nat)
    (h : pf.fragments.length ≤ idx) : pf.push idx y = (pf, false) := by
  unfold PartialFrame.push
  rw [dif_neg (Nat.not_lt.mpr h)]

theorem PartialFrame.push_fields (pf : PartialFrame) (i : Nat) (y : List Nat) :
    (pf.push i y).1.total_count = pf.total_count ∧
    (pf.push i y).1.pts_ms = pf.pts_ms ∧
    (pf.push i y).1.is_keyframe = pf.is_keyframe ∧
    (pf.push i y).1.first_seen = pf.first_seen := by
  unfold PartialFrame.push
  split_ifs <;> simp

-- ═════════════════════════════════════════════════════════════════════════
-- C6: duplicate fragments are idempotent
-- ═════════════════════════════════════════════════════════════════════════

/-- C6: delivering a duplicate fragment (same `frame_seq` and `frag_index`
as one already stored) to the reassembler changes nothing: the state is
literally unchanged and no frame is emitted, so the stored payload is not
overwritten, the received count does not increase, and whatever frame is
eventually emitted is identical whether or not the duplicate was
delivered. -/
theorem C6_duplicate_idempotent (r : FrameReassembler)
    (now seq idx c pts di : Nat) (kf : Bool) (x y : List Nat) (pf : PartialFrame)
    (hkeys : (r.frames.map Prod.fst).Nodup)
    (hfresh : ∀ kv ∈ r.frames, now - kv.2.first_seen ≤ REASSEMBLY_TIMEOUT_MS)
    (hlook : alookup r.frames seq = some pf)
    (hfilled : pf.fragments[idx]? = some (some x))
    (hinc : pf.received_count ≠ pf.total_count) :
    r.push now { frame_seq := seq, frag_index := idx, frag_count := c,
                 pts_ms := pts, is_keyframe := kf, display_index := di,
                 payload := y } = (r, none) := by
  unfold FrameReassembler.push
  rw [filter_stillFresh_eq_self now r.frames hfresh]
  simp only [hlook]
  rw [PartialFrame.push_duplicate pf idx x y hfilled hinc]
  simp only [Bool.false_eq_true, if_false]
  rw [aupdate_eq_self r.frames seq pf hkeys hlook]

/-- C6 witness: a concrete two-fragment slot with fragment 0 stored ignores
a re-delivery of fragment 0. -/
theorem C6_duplicate_idempotent_witness :
    FrameReassembler.push
        ⟨[(3, ⟨[some [7], none], 1, 2, 50, true, 100⟩)]⟩ 200
        { frame_seq := 3, frag_index := 0, frag_count := 2, pts_ms := 50,
          is_keyframe := true, display_index := 0, payload := [9] } =
      (⟨[(3, ⟨[some [7], none], 1, 2, 50, true, 100⟩)]⟩, none) := by
  exact C6_duplicate_idempotent ⟨[(3, ⟨[some [7], none], 1, 2, 50, true, 100⟩)]⟩
    200 3 0 2 50 0 true [7] [9] ⟨[some [7], none], 1, 2, 50, true, 100⟩
    (by decide) (by decide) (by decide) (by decide) (by decide)

-- ═════════════════════════════════════════════════════════════════════════
-- C10: the first packet of a frame_seq fixes the slot's metadata
-- ═════════════════════════════════════════════════════════════════════════

/-- C10: for a packet whose `frame_seq` already has an outstanding partial
slot, the slot's total fragment count, pts_ms, keyframe flag, and creation
time stay those recorded when the slot was created, whatever the packet
carries; and a packet whose `frag_index` is not below the slot's original
total is dropped with no change to the reassembler. -/
theorem C10_first_packet_wins (r : FrameReassembler) (now : Nat)
    (pkt : DualLinkPacket) (pf : PartialFrame)
    (hkeys : (r.frames.map Prod.fst).Nodup)
    (hfresh : ∀ kv ∈ r.frames, now - kv.2.first_seen ≤ REASSEMBLY_TIMEOUT_MS)
    (hlook : alookup r.frames pkt.frame_seq = some pf)
    (hlen : pf.fragments.length = pf.total_count) :
    (∀ pf', alookup ((r.push now pkt).1).frames pkt.frame_seq = some pf' →
      pf'.total_count = pf.total_count ∧ pf'.pts_ms = pf.pts_ms ∧
      pf'.is_keyframe = pf.is_keyframe ∧ pf'.first_seen = pf.first_seen) ∧
    (pf.total_count ≤ pkt.frag_index → r.push now pkt = (r, none)) := by
  have hfil := filter_stillFresh_eq_self now r.frames hfresh
  constructor
  · intro pf' hpf'
    unfold FrameReassembler.push at hpf'
    rw [hfil] at hpf'
    simp only [hlook] at hpf'
    by_cases hc : (pf.push pkt.frag_index pkt.payload).2
    · rw [if_pos hc] at hpf'
      rw [alookup_aremove_self] at hpf'
      exact Option.noConfusion hpf'
    · rw [if_neg hc] at hpf'
      rw [alookup_aupdate_self r.frames pkt.frame_seq _ pf hlook] at hpf'
      have hpf2 := Option.some.inj hpf'
      have hfields := PartialFrame.push_fields pf pkt.frag_index pkt.payload
      rw [hpf2] at hfields
      exact hfields
  · intro hge
    unfold FrameReassembler.push
    rw [hfil]
    simp only [hlook]
    rw [PartialFrame.push_oob pf pkt.frag_index pkt.payload (hlen ▸ hge)]
    simp only [Bool.false_eq_true, if_false]
    rw [aupdate_eq_self r.frames pkt.frame_seq pf hkeys hlook]

/-- C10 witness: a later packet with a larger frag_count, different pts and
flags, and an out-of-range frag_index is dropped without touching the
concrete slot. -/
theorem C10_first_packet_wins_witness :
    FrameReassembler.push
        ⟨[(3, ⟨[some [7], none], 1, 2, 50, true, 100⟩)]⟩ 200
        { frame_seq := 3, frag_index := 5, frag_count := 9, pts_ms := 99,
          is_keyframe := false, display_index := 0, payload := [8] } =
      (⟨[(3, ⟨[some [7], none], 1, 2, 50, true, 100⟩)]⟩, none) := by
  exact (C10_first_packet_wins ⟨[(3, ⟨[some [7], none], 1, 2, 50, true, 100⟩)]⟩
    200 { frame_seq := 3, frag_index := 5, frag_count := 9, pts_ms := 99,
          is_keyframe := false, display_index := 0, payload := [8] }
    ⟨[some [7], none], 1, 2, 50, true, 100⟩
    (by decide) (by decide) (by decide) (by decide)).2 (by decide)

-- ═════════════════════════════════════════════════════════════════════════
-- C7: stale partial frames are evicted
-- ═════════════════════════════════════════════════════════════════════════

theorem push_preserves_no_key (r : FrameReassembler) (now : Nat)
    (pkt : DualLinkPacket) (s : Nat)
    (hs : ∀ kv ∈ r.frames.filter (stillFresh now), kv.1 ≠ s)
    (hne : pkt.frame_seq ≠ s) :
    ∀ kv ∈ ((r.push now pkt).1).frames, kv.1 ≠ s := by
  rcases h : alookup (r.frames.filter (stillFresh now)) pkt.frame_seq with _ | pf
  · simp only [FrameReassembler.push, h]
    split
    · exact hs
    · intro kv hkv
      rcases List.mem_cons.mp hkv with rfl | hmem
      · exact hne
      · exact hs kv hmem
  · simp only [FrameReassembler.push, h]
    split
    · intro kv hkv
      exact hs kv (List.mem_of_mem_filter hkv)
    · intro kv hkv
      simp only [aupdate, List.mem_map] at hkv
      obtain ⟨x, hx, hkv⟩ := hkv
      by_cases hxk : x.1 = pkt.frame_seq
      · rw [if_pos hxk] at hkv
        rw [← hkv]
        exact hne
      · rw [if_neg hxk] at hkv
        rw [← hkv]
        exact hs x hx

theorem pushAll_preserves_no_key (s : Nat) :
    ∀ (l : List (Nat × DualLinkPacket)) (r : FrameReassembler),
      (∀ kv ∈ r.frames, kv.1 ≠ s) → (∀ x ∈ l, x.2.frame_seq ≠ s) →
      ∀ kv ∈ ((pushAll r l).1).frames, kv.1 ≠ s := by
  intro l
  induction l with
  | nil =>
    intro r hr _ kv hkv
    exact hr kv hkv
  | cons a t ih =>
    obtain ⟨tm, pk⟩ := a
    intro r hr hl kv hkv
    simp only [pushAll] at hkv
    refine ih (r.push tm pk).1 ?_ (fun x hx => hl x (List.mem_cons_of_mem _ hx)) kv hkv
    refine push_preserves_no_key r tm pk s ?_ (hl (tm, pk) (List.mem_cons_self _ t))
    intro kv2 hkv2
    exact hr kv2 (List.mem_of_mem_filter hkv2)

/-- C7: a `frame_seq` slot missing at least one fragment whose `first_seen`
is more than 2 seconds old is reclaimed (removed) the next time any packet
is processed, and as long as no packet for that `frame_seq` is pushed, no
state reachable afterwards holds a slot for it — so no `EncodedFrame` is
ever assembled from its fragments. -/
theorem C7_stale_slot_reclaimed (r : FrameReassembler) (now s : Nat)
    (pkt : DualLinkPacket) (pf : PartialFrame)
    (hkeys : (r.frames.map Prod.fst).Nodup)
    (hlook : alookup r.frames s = some pf)
    (hmiss : pf.received_count < pf.total_count)
    (hstale : REASSEMBLY_TIMEOUT_MS < now - pf.first_seen)
    (hne : pkt.frame_seq ≠ s) :
    alookup ((r.push now pkt).1).frames s = none ∧
    ∀ l : List (Nat × DualLinkPacket), (∀ x ∈ l, x.2.frame_seq ≠ s) →
      alookup ((pushAll ((r.push now pkt).1) l).1).frames s = none := by
  have _hmiss := hmiss
  have hstalef : stillFresh now (s, pf) = false := by
    simp only [stillFresh, decide_eq_false_iff_not, Nat.not_le]
    exact hstale
  have hnos : ∀ kv ∈ r.frames.filter (stillFresh now), kv.1 ≠ s := by
    intro kv hkv hks
    have hmem := List.mem_of_mem_filter hkv
    have hfr := List.of_mem_filter hkv
    rw [mem_key_unique r.frames s pf hkeys hlook kv hmem hks] at hfr
    rw [hstalef] at hfr
    exact Bool.noConfusion hfr
  have h1 : ∀ kv ∈ ((r.push now pkt).1).frames, kv.1 ≠ s :=
    push_preserves_no_key r now pkt s hnos hne
  refine ⟨(alookup_eq_none_iff _ _).mpr h1, ?_⟩
  intro l hl
  exact (alookup_eq_none_iff _ _).mpr (pushAll_preserves_no_key s l _ h1 hl)

/-- C7 witness: a concrete incomplete slot created at time 0 is gone after
any packet of another `frame_seq` is processed at time 3000 ms, and stays
gone over a further packet sequence avoiding that `frame_seq`. -/
theorem C7_stale_slot_reclaimed_witness :
    alookup ((FrameReassembler.push ⟨[(3, ⟨[some [7], none], 1, 2, 50, true, 0⟩)]⟩
        3000
        { frame_seq := 4, frag_index := 0, frag_count := 2, pts_ms := 1,
          is_keyframe := false, display_index := 0, payload := [1] }).1).frames
      3 = none := by
  exact (C7_stale_slot_reclaimed ⟨[(3, ⟨[some [7], none], 1, 2, 50, true, 0⟩)]⟩
    3000 3
    { frame_seq := 4, frag_index := 0, frag_count := 2, pts_ms := 1,
      is_keyframe := false, display_index := 0, payload := [1] }
    ⟨[some [7], none], 1, 2, 50, true, 0⟩
    (by decide) (by decide) (by decide) (by decide) (by decide)).1

-- ═════════════════════════════════════════════════════════════════════════
-- C1: end-to-end reassembly of a complete fragment set
-- ═════════════════════════════════════════════════════════════════════════

theorem fillFrags_length (n : Nat) (got : List Nat) (p : Nat → List Nat) :
    (fillFrags n got p).length = n := by
  simp [fillFrags]

theorem fillFrags_nil (n : Nat) (p : Nat → List Nat) :
    fillFrags n [] p = List.replicate n none := by
  simp only [fillFrags, List.not_mem_nil, if_false]
  rw [List.map_const', List.length_range]

theorem fillFrags_set (n : Nat) (got : List Nat) (p : Nat → List Nat) (i : Nat)
    (hi : i < n) :
    (fillFrags n got p).set i (some (p i)) = fillFrags n (i :: got) p := by
  apply List.ext_getElem
  · simp [fillFrags]
  · intro j h1 h2
    rw [List.getElem_set]
    simp only [fillFrags, List.getElem_map, List.getElem_range,
      List.length_set, List.length_map, List.length_range] at h1 h2 ⊢
    by_cases hij : i = j
    · subst hij
      simp
    · simp only [if_neg hij, List.mem_cons]
      have : (j = i ∨ j ∈ got) ↔ j ∈ got := by
        constructor
        · rintro (rfl | h)
          · exact absurd rfl hij
          · exact h
        · exact Or.inr
      rw [if_congr this rfl rfl]

theorem fillFrags_filterMap_of_cover (n : Nat) (got : List Nat)
    (p : Nat → List Nat) (hcov : ∀ i < n, i ∈ got) :
    (fillFrags n got p).filterMap id = (List.range n).map p := by
  have h1 : fillFrags n got p = (List.range n).map (fun i => some (p i)) := by
    simp only [fillFrags]
    apply List.map_congr_left
    intro i hi
    rw [if_pos (hcov i (List.mem_range.mp hi))]
  rw [h1, List.filterMap_map]
  have h2 : (id ∘ fun i => some (p i)) = some ∘ p := rfl
  rw [h2, List.filterMap_eq_map]

theorem pfAt_push (n : Nat) (p : Nat → List Nat) (pts : Nat) (kf0 : Bool)
    (t0 : Nat) (got : List Nat) (i : Nat) (hi : i < n) (hnot : i ∉ got) :
    (pfAt n p pts kf0 t0 got).push i (p i) =
      (pfAt n p pts kf0 t0 (i :: got), got.length + 1 == n) := by
  have hlt : i < (pfAt n p pts kf0 t0 got).fragments.length := by
    simpa [pfAt, fillFrags_length] using hi
  have hget : (pfAt n p pts kf0 t0 got).fragments.get ⟨i, hlt⟩ = none := by
    simp [pfAt, fillFrags, hnot]
  unfold PartialFrame.push
  rw [dif_pos hlt, hget]
  simp only [Option.isNone_none, if_true]
  simp [pfAt, fillFrags_set n got p i hi]

theorem singleton_fresh (seq t t0 : Nat) (pf : PartialFrame)
    (hfs : pf.first_seen = t0) (hfr : t - t0 ≤ 2000) :
    [(seq, pf)].filter (stillFresh t) = [(seq, pf)] := by
  apply filter_stillFresh_eq_self
  intro kv hkv
  rcases List.mem_cons.mp hkv with rfl | h
  · simpa [hfs, REASSEMBLY_TIMEOUT_MS] using hfr
  · exact absurd h (List.not_mem_nil kv)

theorem alookup_singleton (seq : Nat) (pf : PartialFrame) :
    alookup [(seq, pf)] seq = some pf := by
  simp [alookup]

theorem reasm_step_incomplete (seq n pts t0 t : Nat) (kfs : Nat → Bool)
    (p : Nat → List Nat) (kf0 : Bool) (got : List Nat) (i : Nat)
    (hi : i < n) (hnot : i ∉ got) (hfr : t - t0 ≤ 2000)
    (hne : got.length + 1 ≠ n) :
    FrameReassembler.push ⟨[(seq, pfAt n p pts kf0 t0 got)]⟩ t
        (fragPacket seq n pts kfs p i) =
      (⟨[(seq, pfAt n p pts kf0 t0 (i :: got))]⟩, none) := by
  simp only [FrameReassembler.push,
    singleton_fresh seq t t0 (pfAt n p pts kf0 t0 got) rfl hfr,
    alookup_singleton, fragPacket]
  rw [pfAt_push n p pts kf0 t0 got i hi hnot]
  rw [show (got.length + 1 == n) = false from beq_eq_false_iff_ne.mpr hne]
  simp [aupdate]

theorem reasm_step_complete (seq n pts t0 t : Nat) (kfs : Nat → Bool)
    (p : Nat → List Nat) (kf0 : Bool) (got : List Nat) (i : Nat)
    (hi : i < n) (hnot : i ∉ got) (hfr : t - t0 ≤ 2000)
    (heq : got.length + 1 = n) (hcov : ∀ j < n, j ∈ i :: got) :
    FrameReassembler.push ⟨[(seq, pfAt n p pts kf0 t0 got)]⟩ t
        (fragPacket seq n pts kfs p i) =
      (⟨[]⟩, some { data := joinRange n p, timestamp_us := pts * 1000,
                    is_keyframe := kf0, codec := VideoCodec.h264 }) := by
  simp only [FrameReassembler.push,
    singleton_fresh seq t t0 (pfAt n p pts kf0 t0 got) rfl hfr,
    alookup_singleton, fragPacket]
  rw [pfAt_push n p pts kf0 t0 got i hi hnot]
  rw [show (got.length + 1 == n) = true from beq_iff_eq.mpr heq]
  simp only [if_true]
  have h1 : aremove [(seq, pfAt n p pts kf0 t0 got)] seq = [] := by
    simp [aremove]
  have h2 : emitFrame (pfAt n p pts kf0 t0 (i :: got)) =
      { data := joinRange n p, timestamp_us := pts * 1000,
        is_keyframe := kf0, codec := VideoCodec.h264 } := by
    simp [emitFrame, pfAt, PartialFrame.assemble,
      fillFrags_filterMap_of_cover n (i :: got) p hcov, joinRange]
  rw [h1, h2]

theorem reasm_first_incomplete (seq n pts t0 : Nat) (kfs : Nat → Bool)
    (p : Nat → List Nat) (i0 : Nat) (hi : i0 < n) (hne : 1 ≠ n) :
    FrameReassembler.push ⟨[]⟩ t0 (fragPacket seq n pts kfs p i0) =
      (⟨[(seq, pfAt n p pts (kfs i0) t0 [i0])]⟩, none) := by
  have hnew : PartialFrame.new n pts (kfs i0) t0 = pfAt n p pts (kfs i0) t0 [] := by
    simp [PartialFrame.new, pfAt, fillFrags_nil]
  have hlook : alookup (([] : List (Nat × PartialFrame)).filter (stillFresh t0)) seq =
      none := rfl
  simp only [FrameReassembler.push, hlook, fragPacket]
  rw [hnew, pfAt_push n p pts (kfs i0) t0 [] i0 hi (List.not_mem_nil i0)]
  rw [show ((([] : List Nat)).length + 1 == n) = false from
    beq_eq_false_iff_ne.mpr (by simpa using hne)]
  simp

theorem reasm_first_complete (seq n pts t0 : Nat) (kfs : Nat → Bool)
    (p : Nat → List Nat) (i0 : Nat) (hi : i0 < n) (heq : 1 = n) :
    FrameReassembler.push ⟨[]⟩ t0 (fragPacket seq n pts kfs p i0) =
      (⟨[]⟩, some { data := joinRange n p, timestamp_us := pts * 1000,
                    is_keyframe := kfs i0, codec := VideoCodec.h264 }) := by
  have hcov : ∀ j < n, j ∈ [i0] := by
    intro j hj
    have hj1 : j = 0 := by omega
    have hi1 : i0 = 0 := by omega
    simp [hj1, hi1]
  have hnew : PartialFrame.new n pts (kfs i0) t0 = pfAt n p pts (kfs i0) t0 [] := by
    simp [PartialFrame.new, pfAt, fillFrags_nil]
  have hlook : alookup (([] : List (Nat × PartialFrame)).filter (stillFresh t0)) seq =
      none := rfl
  simp only [FrameReassembler.push, hlook, fragPacket]
  rw [hnew, pfAt_push n p pts (kfs i0) t0 [] i0 hi (List.not_mem_nil i0)]
  rw [show ((([] : List Nat)).length + 1 == n) = true from
    beq_iff_eq.mpr (by simpa using heq)]
  simp only [if_true]
  have h2 : emitFrame (pfAt n p pts (kfs i0) t0 [i0]) =
      { data := joinRange n p, timestamp_us := pts * 1000,
        is_keyframe := kfs i0, codec := VideoCodec.h264 } := by
    simp [emitFrame, pfAt, PartialFrame.assemble,
      fillFrags_filterMap_of_cover n [i0] p hcov, joinRange]
  rw [h2]
  rfl

theorem reasm_loop (seq n pts : Nat) (kfs : Nat → Bool) (p : Nat → List Nat)
    (kf0 : Bool) (t0 : Nat) :
    ∀ (rest : List (Nat × Nat)) (got : List Nat), rest ≠ [] →
      (got ++ rest.map Prod.snd).Perm (List.range n) →
      (∀ x ∈ rest, x.1 - t0 ≤ 2000) →
      pushAll ⟨[(seq, pfAt n p pts kf0 t0 got)]⟩
          (rest.map (fun x => (x.1, fragPacket seq n pts kfs p x.2))) =
        (⟨[]⟩, List.replicate (rest.length - 1) none ++
          [some { data := joinRange n p, timestamp_us := pts * 1000,
                  is_keyframe := kf0, codec := VideoCodec.h264 }]) := by
  intro rest
  induction rest with
  | nil =>
    intro got h
    exact absurd rfl h
  | cons a rest' ih =>
    obtain ⟨t, i⟩ := a
    intro got _ hperm htime
    have hnd : (got ++ i :: rest'.map Prod.snd).Nodup :=
      hperm.nodup_iff.mpr (List.nodup_range n)
    have hi : i < n := by
      have : i ∈ List.range n := hperm.mem_iff.mp (by simp)
      exact List.mem_range.mp this
    have hnot : i ∉ got := by
      intro hmem
      exact List.disjoint_of_nodup_append hnd hmem (List.mem_cons_self i _)
    have ht : t - t0 ≤ 2000 := htime (t, i) (List.mem_cons_self _ rest')
    simp only [List.map_cons, pushAll]
    cases rest' with
    | nil =>
      have hlen2 : got.length + 1 = n := by
        have := hperm.length_eq
        simpa using this
      have hcov : ∀ j < n, j ∈ i :: got := by
        intro j hj
        have hj2 : j ∈ got ++ [i] :=
          hperm.mem_iff.mpr (List.mem_range.mpr hj)
        rcases List.mem_append.mp hj2 with h | h
        · exact List.mem_cons_of_mem i h
        · simp only [List.mem_singleton] at h
          simp [h]
      rw [reasm_step_complete seq n pts t0 t kfs p kf0 got i hi hnot ht hlen2 hcov]
      simp [pushAll]
    | cons b t2 =>
      have hneq : got.length + 1 ≠ n := by
        have hl := hperm.length_eq
        simp only [List.length_append, List.length_cons, List.map_cons,
          List.length_map, List.length_range] at hl
        omega
      rw [reasm_step_incomplete seq n pts t0 t kfs p kf0 got i hi hnot ht hneq]
      have hperm' : ((i :: got) ++ (b :: t2).map Prod.snd).Perm (List.range n) := by
        refine List.Perm.trans ?_ hperm
        simpa using List.perm_middle.symm
      have ih2 := ih (i :: got) (by simp) hperm'
        (fun x hx => htime x (List.mem_cons_of_mem _ hx))
      rw [ih2]
      simp [List.replicate_succ]

/-- C1: starting from an empty reassembler, delivering the `n` fragments of
one `frame_seq` in any order (each within the 2-second window that starts
at the first delivery) emits no frame before the last fragment and exactly
one `EncodedFrame` at the last fragment, whose data is the concatenation of
the payloads in `frag_index` order, with `timestamp_us = pts_ms * 1000`,
`is_keyframe` from the slot-creating (first-delivered) packet, and
`codec = h264`; afterwards the reassembler holds no partial slot. -/
theorem C1_reassembly (n seq pts : Nat) (kfs : Nat → Bool) (p : Nat → List Nat)
    (t0 i0 : Nat) (restD : List (Nat × Nat))
    (hperm : (((t0, i0) :: restD).map Prod.snd).Perm (List.range n))
    (htime : ∀ x ∈ (t0, i0) :: restD, x.1 - t0 ≤ 2000) :
    pushAll FrameReassembler.empty
        (((t0, i0) :: restD).map (fun x => (x.1, fragPacket seq n pts kfs p x.2))) =
      (FrameReassembler.empty,
        List.replicate restD.length none ++
          [some { data := joinRange n p, timestamp_us := pts * 1000,
                  is_keyframe := kfs i0, codec := VideoCodec.h264 }]) := by
  have hi0 : i0 < n := by
    have : i0 ∈ List.range n := hperm.mem_iff.mp (by simp)
    exact List.mem_range.mp this
  simp only [List.map_cons, pushAll]
  cases restD with
  | nil =>
    have heq : 1 = n := by
      have := hperm.length_eq
      simpa using this
    rw [show FrameReassembler.empty = (⟨[]⟩ : FrameReassembler) from rfl]
    rw [reasm_first_complete seq n pts t0 kfs p i0 hi0 heq]
    simp [pushAll]
  | cons b t2 =>
    have hne : 1 ≠ n := by
      have hl := hperm.length_eq
      simp only [List.map_cons, List.length_cons, List.length_map,
        List.length_range] at hl
      omega
    rw [show FrameReassembler.empty = (⟨[]⟩ : FrameReassembler) from rfl]
    rw [reasm_first_incomplete seq n pts t0 kfs p i0 hi0 hne]
    have hperm' : (([i0]) ++ ((b :: t2).map Prod.snd)).Perm (List.range n) := by
      simpa using hperm
    have hl := reasm_loop seq n pts kfs p (kfs i0) t0 (b :: t2) [i0]
      (by simp) hperm' (fun x hx => htime x (List.mem_cons_of_mem _ hx))
    rw [hl]
    simp [List.replicate_succ]

/-- C1 witness: a three-fragment frame delivered in the order 2, 0, 1 emits
nothing until the last fragment and then exactly the concatenated frame. -/
theorem C1_reassembly_witness :
    pushAll FrameReassembler.empty
        [(100, fragPacket 7 3 1000 (fun _ => true) (fun i => [i]) 2),
         (150, fragPacket 7 3 1000 (fun _ => true) (fun i => [i]) 0),
         (2100, fragPacket 7 3 1000 (fun _ => true) (fun i => [i]) 1)] =
      (FrameReassembler.empty,
        [none, none,
         some { data := [0, 1, 2], timestamp_us := 1000000,
                is_keyframe := true, codec := VideoCodec.h264 }]) := by
  have h := C1_reassembly 3 7 1000 (fun _ => true) (fun i => [i]) 100 2
    [(150, 0), (2100, 1)] (by decide) (by decide)
  simpa [fragPacket, joinRange] using h

end DualLink
